import Mathlib

/-!
Verification of the event timeline/map application: shallow embedding of the
backend ingestion pipeline and query handler (src/backend/server.js) and of the
client-side facet derivation and filter engine (MapTimelinePage, Timeline.js),
with theorems settling the specification's claims.

Dates are modelled as integer timestamps in milliseconds since the epoch, in
the fixed UTC reference timezone.  JS `Date` values carry millisecond
precision, so this is exact.  Coordinates are modelled as rationals (the code
manipulates them only by parsing and repackaging, never by arithmetic).
-/

/-- Milliseconds in one day. -/
def msPerDay : Int := 86400000

/-- Start-of-day truncation of a millisecond timestamp (UTC reference
timezone): the largest multiple of `msPerDay` not exceeding `t`.  Embeds
`startOfDay(d).getTime()` (date-fns) and `setUTCHours(0,0,0,0)`. -/
def startOfDayTs (t : Int) : Int := t - t % msPerDay

/-- Case-insensitive substring test: embeds the client title filter's
`hay.toLowerCase().includes(needle.toLowerCase())`. -/
def substrCI (needle hay : String) : Bool :=
  decide (needle.toLower.toList <:+: hay.toLower.toList)

/-- A stored Event, as persisted by the backend and consumed by the client
(after the client has parsed the date).  `coordinates` is the ordered pair
[longitude, latitude]. -/
structure Event where
  title : String
  description : String
  people : List String
  date : Int
  address : String
  coordinates : List ℚ
  tags : List String
  images : List String
deriving DecidableEq, Repr

/-- The client filter specification held in MapTimelinePage state:
`{ title: '', people: '', tags: '' }`, where the empty string means
"no filter selected" (JS falsiness). -/
structure Filters where
  title : String
  people : String
  tags : String
deriving DecidableEq, Repr

/-- One event's match against the filter specification and selected date:
embeds the predicate body of `filteredEvents` in MapTimelinePage
(matchesDate && matchesTitle && matchesPeople && matchesTags). -/
def eventMatches (filters : Filters) (selectedDate : Option Int) (e : Event) : Bool :=
  (match selectedDate with
   | none => true
   | some d => startOfDayTs e.date == startOfDayTs d) &&
  (filters.title == "" || substrCI filters.title e.title) &&
  (filters.people == "" || e.people.contains filters.people) &&
  (filters.tags == "" || e.tags.contains filters.tags)

/-- The client Filter Engine: `filteredEvents` of MapTimelinePage, a
`useMemo`-derived `allEvents.filter(...)`. -/
def filteredEvents (allEvents : List Event) (filters : Filters)
    (selectedDate : Option Int) : List Event :=
  allEvents.filter (eventMatches filters selectedDate)

/-- First-occurrence deduplication: embeds the JS idiom
`[...new Set(xs)]`, which keeps the first occurrence of each element. -/
def jsDedup [DecidableEq α] : List α → List α
  | [] => []
  | a :: l => a :: jsDedup (l.filter (· ≠ a))
termination_by l => l.length
decreasing_by
  simpa [Nat.lt_succ_iff] using List.length_filter_le (fun x => decide (x ≠ a)) l

/-- `uniquePeople` of MapTimelinePage: flatten every event's `people`, drop
falsy (empty) entries, deduplicate via a Set, and `.sort()`
(lexicographic). -/
def uniquePeople (allEvents : List Event) : List String :=
  List.insertionSort (· ≤ ·)
    (jsDedup ((allEvents.flatMap (·.people)).filter (· ≠ "")))

/-- `uniqueTags` of MapTimelinePage: same derivation over `tags`. -/
def uniqueTags (allEvents : List Event) : List String :=
  List.insertionSort (· ≤ ·)
    (jsDedup ((allEvents.flatMap (·.tags)).filter (· ≠ "")))

/-- `uniqueDates` of the Timeline component: map every event's date to its
start-of-day timestamp, deduplicate via a Set, and sort with `compareAsc`
(chronologically ascending). -/
def uniqueDates (events : List Event) : List Int :=
  List.insertionSort (· ≤ ·) (jsDedup (events.map (fun e => startOfDayTs e.date)))

/-- What a JS date-valued input looks like to the code: absent or empty
(falsy), a non-empty string that does not parse to a valid date
(`isNaN(d.getTime())` / `!isValid(parsed)`), or a valid instant with its
millisecond timestamp. -/
inductive DateInput
  | missing
  | malformed (s : String)
  | valid (ts : Int)
deriving DecidableEq, Repr

/-- The multipart form body of `POST /api/events`.  Absent string fields and
empty string fields are both JS-falsy, so they are identified and modelled
as `""`. -/
structure Payload where
  title : String
  description : String
  people : String
  date : DateInput
  address : String
  tags : String
deriving DecidableEq, Repr

/-- One Nominatim candidate, after `parseFloat` of its `lat`/`lon` string
fields: `none` stands for NaN (unparseable). -/
structure GeoCandidate where
  lat : Option ℚ
  lon : Option ℚ
deriving DecidableEq, Repr

/-- Outcome of the geocoding round-trip: a candidate list from the upstream
service, or a network/HTTP failure (the axios rejection path). -/
inductive GeoOutcome
  | ok (candidates : List GeoCandidate)
  | netError
deriving DecidableEq, Repr

/-- The response of the `POST /api/events` handler, by HTTP status and
classification.  `validationError fields` is a 400 whose message names the
given fields; `geocodingFailed status` is the 400 "Could not geocode address"
(zero candidates) or the 500 "Failed to verify address location" (geocoder
error / NaN coordinates); `created e` is the 201 with the stored event. -/
inductive CreateResponse
  | validationError (fields : List String)
  | geocodingFailed (status : Nat)
  | created (e : Event)
deriving DecidableEq, Repr

/-- Comma-splitting of the `people`/`tags` form fields:
`s.split(",").map(p => p.trim()).filter(p => p)`. -/
def splitTrim (s : String) : List String :=
  ((s.splitOn ",").map String.trim).filter (· ≠ "")

/-- The `POST /api/events` handler.  `geo` is the outcome of the Nominatim
call for `p.address`, `files` the filenames multer stored, `store` the event
collection; the result is the HTTP response together with the new collection
state (Mongo insert appends).  Validation failure returns before geocoding;
geocoding failure returns before the store is touched; a payload date that
does not cast to a Date fails Mongoose validation at `save` with no write. -/
def createEvent (p : Payload) (geo : GeoOutcome) (files : List String)
    (store : List Event) : CreateResponse × List Event :=
  if p.title = "" ∨ p.date = DateInput.missing ∨ p.address = "" then
    (CreateResponse.validationError ["title", "date", "address"], store)
  else
    match geo with
    | GeoOutcome.netError => (CreateResponse.geocodingFailed 500, store)
    | GeoOutcome.ok [] => (CreateResponse.geocodingFailed 400, store)
    | GeoOutcome.ok (c :: _) =>
      match c.lon, c.lat with
      | some lonv, some latv =>
        match p.date with
        | DateInput.valid ts =>
          let e : Event :=
            { title := p.title
              description := p.description
              people := splitTrim p.people
              date := ts
              address := p.address
              coordinates := [lonv, latv]
              tags := splitTrim p.tags
              images := files.map (fun f => "/uploads/" ++ f) }
          (CreateResponse.created e, store ++ [e])
        | _ => (CreateResponse.validationError ["date"], store)
      | _, _ => (CreateResponse.geocodingFailed 500, store)

/-- An atom of the modelled fragment of JS regular expressions: an ordinary
(pattern) character, or the `.` wildcard.  The backend builds the search
regex as `new RegExp(search, "i")` from the raw query parameter, so the
pattern language is full JS regex; search terms made only of ordinary
characters and `.` fall in this fragment, where JS semantics is the
concatenation of the atoms below. -/
inductive RegexToken
  | lit (c : Char)
  | dot
deriving DecidableEq, Repr

/-- One atom against one character, under the `i` flag: an ordinary character
matches case-insensitively (char-wise lowercasing, exact on ASCII); `.`
matches every character except the four JS line terminators. -/
def tokMatches : RegexToken → Char → Bool
  | RegexToken.lit c, x => c.toLower == x.toLower
  | RegexToken.dot, x =>
    !(x == '\n' || x == '\r' || x == '\u2028' || x == '\u2029')

/-- The token sequence against a prefix of the character list. -/
def matchesHere : List RegexToken → List Char → Bool
  | [], _ => true
  | _ :: _, [] => false
  | t :: ts, c :: cs => tokMatches t c && matchesHere ts cs

/-- Unanchored `RegExp.prototype.test`: the token sequence matches at some
position of the character list. -/
def regexTest (toks : List RegexToken) : List Char → Bool
  | [] => matchesHere toks []
  | c :: cs => matchesHere toks (c :: cs) || regexTest toks cs

/-- The ECMA-262 regex SyntaxCharacters: inside `new RegExp(search)` these do
not denote themselves literally. -/
def regexSyntaxChars : List Char :=
  ['^', '$', '\\', '.', '*', '+', '?', '(', ')', '[', ']', '\x7b', '\x7d', '|']

/-- A character the pattern grammar treats as an ordinary literal atom. -/
def isLiteralChar (c : Char) : Bool := !(regexSyntaxChars.contains c)

/-- One search-term character as a pattern atom: `.` is the wildcard, any
other syntax character puts the pattern outside the modelled fragment
(`none`), everything else is a literal atom. -/
def compileChar (c : Char) : Option RegexToken :=
  if c = '.' then some RegexToken.dot
  else if regexSyntaxChars.contains c then none
  else some (RegexToken.lit c)

/-- Char-wise compilation of the search term into the modelled regex
fragment; `none` when the term uses regex syntax beyond the fragment —
there the code either applies fuller regex semantics or, on an invalid
pattern such as `(`, throws so that the request answers 500 with no event
list. -/
def compileChars : List Char → Option (List RegexToken)
  | [] => some []
  | c :: cs =>
    match compileChar c, compileChars cs with
    | some t, some ts => some (t :: ts)
    | _, _ => none

/-- Compilation of the whole search term: `new RegExp(search, "i")` within
the modelled fragment. -/
def compilePattern (s : String) : Option (List RegexToken) :=
  compileChars s.toList

/-- One event's match against the compiled search pattern: the
case-insensitive regex is tried against title, description, every people
entry, every tag entry, and the address, with `$or` semantics. -/
def matchesSearchR (toks : List RegexToken) (e : Event) : Bool :=
  regexTest toks e.title.toList || regexTest toks e.description.toList ||
  e.people.any (fun pers => regexTest toks pers.toList) ||
  e.tags.any (fun t => regexTest toks t.toList) ||
  regexTest toks e.address.toList

/-- One event's match against the optional day filter: a valid date expands
to the inclusive UTC range `[setUTCHours(0,0,0,0), setUTCHours(23,59,59,999)]`;
an absent or malformed date imposes no constraint. -/
def matchesDateFilter (d : DateInput) (e : Event) : Bool :=
  match d with
  | DateInput.valid ts =>
    decide (startOfDayTs ts ≤ e.date) && decide (e.date ≤ startOfDayTs ts + 86399999)
  | _ => true

/-- Descending-by-date ordering of the result list: `.sort({ date: -1 })`. -/
def sortByDateDesc (events : List Event) : List Event :=
  List.insertionSort (fun a b => b.date ≤ a.date) events

/-- The `GET /api/events` handler over the store's event list: `search = ""`
(falsy) means no search filter; otherwise the term is compiled as a regex and
tried against the five fields; the date filter is applied only when the
parameter is present and valid; results are sorted descending by date.
`none` marks the queries whose search term lies outside the modelled regex
fragment, where the code either matches by fuller regex semantics or — on an
invalid pattern — answers 500 with no event list. -/
def findEvents (store : List Event) (search : String) (d : DateInput) :
    Option (List Event) :=
  if search = "" then
    some (sortByDateDesc (store.filter (fun e => matchesDateFilter d e)))
  else
    match compilePattern search with
    | none => none
    | some toks =>
      some (sortByDateDesc (store.filter (fun e =>
        matchesSearchR toks e && matchesDateFilter d e)))

/-- A stored event none of whose searched fields contains the character
`.`. -/
def dotlessEvent : Event :=
  { title := "Standup", description := "Weekly sync", people := ["Alice"],
    date := 1721001600000, address := "1 Infinite Loop, Cupertino",
    coordinates := [-122.03, 37.33], tags := ["work"], images := [] }

/-- An event as fetched by the client before date parsing: the `date` field
as the JS code can observe it (absent/falsy, unparseable, or a valid
instant). -/
structure RawEvent where
  title : String
  description : String
  people : List String
  date : DateInput
  address : String
  coordinates : List ℚ
  tags : List String
  images : List String
deriving DecidableEq, Repr

/-- Date parsing of one fetched event in the MapTimelinePage fetch effect:
`parseISO` succeeds exactly on a valid date, otherwise the event's date is
set to `null` and the event is dropped by the subsequent filter. -/
def parseClientEvent (r : RawEvent) : Option Event :=
  match r.date with
  | DateInput.valid ts =>
    some { title := r.title, description := r.description, people := r.people,
           date := ts, address := r.address, coordinates := r.coordinates,
           tags := r.tags, images := r.images }
  | _ => none

/-- `eventsWithDates` of the MapTimelinePage fetch effect: parse each date,
keep only events whose date parsed to a valid instant. -/
def eventsWithDates (raws : List RawEvent) : List Event :=
  raws.filterMap parseClientEvent

/-- Modelled from the spec, for comparison with the code: the list of
required creation fields among "title", "date", "address" that are missing or
empty in a payload — what the spec says the ValidationError lists. -/
def specMissingFields (p : Payload) : List String :=
  (if p.title = "" then ["title"] else []) ++
  (if p.date = DateInput.missing then ["date"] else []) ++
  (if p.address = "" then ["address"] else [])

/-- A creation payload with an empty title but a present date and address. -/
def emptyTitlePayload : Payload :=
  { title := "", description := "", people := "",
    date := DateInput.valid 1721001600000,
    address := "1 Infinite Loop, Cupertino", tags := "" }

theorem mem_jsDedup [DecidableEq α] (l : List α) (x : α) :
    x ∈ jsDedup l ↔ x ∈ l := by
  induction l using jsDedup.induct with
  | case1 => simp [jsDedup]
  | case2 a l ih =>
    rw [jsDedup, List.mem_cons, List.mem_cons, ih, List.mem_filter]
    by_cases hx : x = a <;> simp [hx]

theorem nodup_jsDedup [DecidableEq α] (l : List α) : (jsDedup l).Nodup := by
  induction l using jsDedup.induct with
  | case1 => simp [jsDedup]
  | case2 a l ih =>
    rw [jsDedup]
    refine List.nodup_cons.mpr ⟨fun hmem => ?_, ih⟩
    have h := (mem_jsDedup _ _).mp hmem
    simp [List.mem_filter] at h

theorem eventMatches_iff (f : Filters) (sd : Option Int) (e : Event) :
    eventMatches f sd e = true ↔
      (sd = none ∨ ∃ d, sd = some d ∧ startOfDayTs e.date = startOfDayTs d) ∧
      (f.title = "" ∨ f.title.toLower.toList <:+: e.title.toLower.toList) ∧
      (f.people = "" ∨ f.people ∈ e.people) ∧
      (f.tags = "" ∨ f.tags ∈ e.tags) := by
  cases sd with
  | none => simp [eventMatches, substrCI, and_assoc]
  | some d => simp [eventMatches, substrCI, and_assoc]

/-- C1: the client Filter Engine returns exactly the events satisfying the
conjunction of the four filter conditions — date (unset, or equal start-of-day
truncations, hence independent of the time-of-day component), title
(case-insensitive substring), people (exact membership), tags (exact
membership) — and the result preserves the relative order of the input
(it is a sublist of the input). -/
theorem filterEngine_correct (events : List Event) (f : Filters) (sd : Option Int) :
    (∀ e, e ∈ filteredEvents events f sd ↔ e ∈ events ∧
      (sd = none ∨ ∃ d, sd = some d ∧ startOfDayTs e.date = startOfDayTs d) ∧
      (f.title = "" ∨ f.title.toLower.toList <:+: e.title.toLower.toList) ∧
      (f.people = "" ∨ f.people ∈ e.people) ∧
      (f.tags = "" ∨ f.tags ∈ e.tags)) ∧
    List.Sublist (filteredEvents events f sd) events := by
  refine ⟨fun e => ?_, List.filter_sublist events⟩
  rw [filteredEvents, List.mem_filter, eventMatches_iff]

theorem sortedDedup_spec [LinearOrder α] [DecidableEq α] (l : List α) :
    (List.insertionSort (· ≤ ·) (jsDedup l)).Sorted (· ≤ ·) ∧
    (List.insertionSort (· ≤ ·) (jsDedup l)).Nodup ∧
    ∀ x, x ∈ List.insertionSort (· ≤ ·) (jsDedup l) ↔ x ∈ l := by
  refine ⟨List.sorted_insertionSort _ _, ?_, fun x => ?_⟩
  · exact ((List.perm_insertionSort _ _).nodup_iff).mpr (nodup_jsDedup l)
  · rw [(List.perm_insertionSort _ _).mem_iff, mem_jsDedup]

/-- C6: for every input event set, `uniquePeople` and `uniqueTags` are sorted
lexicographically, contain no duplicates and no empty entries, and an entry
appears iff some event's `people` (resp. `tags`) sequence contains it as a
non-empty name — hence an event with an empty `people` sequence contributes
no entry to `uniquePeople`. -/
theorem facets_sorted_nodup (events : List Event) :
    ((uniquePeople events).Sorted (· ≤ ·) ∧ (uniquePeople events).Nodup ∧
      "" ∉ uniquePeople events ∧
      (∀ x, x ∈ uniquePeople events ↔ x ≠ "" ∧ ∃ e ∈ events, x ∈ e.people)) ∧
    ((uniqueTags events).Sorted (· ≤ ·) ∧ (uniqueTags events).Nodup ∧
      "" ∉ uniqueTags events ∧
      (∀ x, x ∈ uniqueTags events ↔ x ≠ "" ∧ ∃ e ∈ events, x ∈ e.tags)) := by
  obtain ⟨hs1, hn1, hm1⟩ :=
    sortedDedup_spec ((events.flatMap (·.people)).filter (· ≠ ""))
  obtain ⟨hs2, hn2, hm2⟩ :=
    sortedDedup_spec ((events.flatMap (·.tags)).filter (· ≠ ""))
  refine ⟨⟨hs1, hn1, ?_, fun x => ?_⟩, ⟨hs2, hn2, ?_, fun x => ?_⟩⟩
  · rw [uniquePeople, hm1]; simp [List.mem_filter]
  · rw [uniquePeople, hm1]
    simp only [List.mem_filter, List.mem_flatMap, decide_eq_true_eq]
    tauto
  · rw [uniqueTags, hm2]; simp [List.mem_filter]
  · rw [uniqueTags, hm2]
    simp only [List.mem_filter, List.mem_flatMap, decide_eq_true_eq]
    tauto

/-- C7: for every input event set, `uniqueDates` is exactly the set of
distinct start-of-day (UTC) truncations of the events' dates — a timestamp
appears iff it is the start-of-day truncation of some event's date — with no
duplicates and sorted chronologically ascending. -/
theorem uniqueDates_spec (events : List Event) :
    (uniqueDates events).Sorted (· ≤ ·) ∧ (uniqueDates events).Nodup ∧
    ∀ d, d ∈ uniqueDates events ↔ ∃ e ∈ events, startOfDayTs e.date = d := by
  obtain ⟨hs, hn, hm⟩ :=
    sortedDedup_spec (events.map (fun e => startOfDayTs e.date))
  refine ⟨hs, hn, fun d => ?_⟩
  rw [uniqueDates, hm]
  simp [List.mem_map]

instance : IsTotal Event (fun a b => b.date ≤ a.date) :=
  ⟨fun a b => le_total b.date a.date⟩

instance : IsTrans Event (fun a b => b.date ≤ a.date) :=
  ⟨fun _ _ _ h1 h2 => le_trans h2 h1⟩

theorem matchesHere_lit (ls cs : List Char) :
    matchesHere (ls.map RegexToken.lit) cs = true ↔
      List.IsPrefix (ls.map Char.toLower) (cs.map Char.toLower) := by
  induction ls generalizing cs with
  | nil => simp [matchesHere]
  | cons a ls ih =>
    cases cs with
    | nil => simp [matchesHere]
    | cons c cs => simp [matchesHere, tokMatches, ih, List.cons_prefix_cons]

theorem regexTest_lit (ls cs : List Char) :
    regexTest (ls.map RegexToken.lit) cs = true ↔
      (ls.map Char.toLower) <:+: (cs.map Char.toLower) := by
  induction cs with
  | nil =>
    rw [regexTest, matchesHere_lit]
    simp
  | cons c cs ih =>
    rw [regexTest, Bool.or_eq_true, matchesHere_lit, ih]
    simp [List.infix_cons_iff]

theorem compileChars_literal (l : List Char) (h : l.all isLiteralChar = true) :
    compileChars l = some (l.map RegexToken.lit) := by
  induction l with
  | nil => rfl
  | cons c cs ih =>
    rw [List.all_cons, Bool.and_eq_true] at h
    have hc1 : regexSyntaxChars.contains c = false := by
      have h1 := h.1
      rwa [isLiteralChar, Bool.not_eq_true'] at h1
    have hcdot : ¬(c = '.') := by
      intro hcd
      subst hcd
      simp [regexSyntaxChars] at hc1
    have hmem : ¬(c ∈ regexSyntaxChars) := by simpa using hc1
    simp [compileChars, compileChar, hcdot, hc1, hmem, ih h.2]

theorem matchesDateFilter_iff (d : DateInput) (e : Event) :
    matchesDateFilter d e = true ↔
      ∀ ts, d = DateInput.valid ts →
        startOfDayTs ts ≤ e.date ∧ e.date ≤ startOfDayTs ts + 86399999 := by
  cases d <;> simp [matchesDateFilter]

/-- C4 fails as stated: the handler matches the search term as a regular
expression, not as a literal substring.  With the single-event store
[dotlessEvent] and the search term ".", the handler returns the event even
though none of its five searched fields contains "." as a substring (the
pattern `.` matches any character); and with the search term "(" — an
invalid pattern — the RegExp constructor throws and the handler answers 500
with no event list instead of matching it as a substring. -/
theorem findEvents_search_counterexample :
    findEvents [dotlessEvent] "." DateInput.missing = some [dotlessEvent] ∧
    ¬ ((".".toList.map Char.toLower)
          <:+: (dotlessEvent.title.toList.map Char.toLower) ∨
       (".".toList.map Char.toLower)
          <:+: (dotlessEvent.description.toList.map Char.toLower) ∨
       (∃ p ∈ dotlessEvent.people,
         (".".toList.map Char.toLower) <:+: (p.toList.map Char.toLower)) ∨
       (∃ t ∈ dotlessEvent.tags,
         (".".toList.map Char.toLower) <:+: (t.toList.map Char.toLower)) ∨
       (".".toList.map Char.toLower)
          <:+: (dotlessEvent.address.toList.map Char.toLower)) ∧
    findEvents [dotlessEvent] "(" DateInput.missing = none := by
  refine ⟨rfl, by decide, rfl⟩

/-- C4 (amended): for every `GET /api/events` query whose search term is free
of regex syntax characters — terms on which the constructed case-insensitive
regex is equivalent to a case-insensitive substring test — the handler
returns exactly the stored events that match the search term as a
case-insensitive substring of title, description, some people entry, some tag
entry, or the address, with OR semantics, when one is given, and whose date
lies in the inclusive UTC day range [startOfDayUTC, startOfDayUTC + 86399999]
when a valid date is given (AND of both when both are present), and the
result is always sorted descending by date.  (Terms containing regex syntax
characters are instead interpreted as regular expressions, or fail the
request when the pattern is invalid.) -/
theorem findEvents_literalSearch (store : List Event) (search : String)
    (d : DateInput) (hs : search.toList.all isLiteralChar = true) :
    ∃ res, findEvents store search d = some res ∧
      (∀ e, e ∈ res ↔ e ∈ store ∧
        (search = "" ∨
          ((search.toList.map Char.toLower)
              <:+: (e.title.toList.map Char.toLower) ∨
           (search.toList.map Char.toLower)
              <:+: (e.description.toList.map Char.toLower) ∨
           (∃ p ∈ e.people,
             (search.toList.map Char.toLower) <:+: (p.toList.map Char.toLower)) ∨
           (∃ t ∈ e.tags,
             (search.toList.map Char.toLower) <:+: (t.toList.map Char.toLower)) ∨
           (search.toList.map Char.toLower)
              <:+: (e.address.toList.map Char.toLower))) ∧
        (∀ ts, d = DateInput.valid ts →
          startOfDayTs ts ≤ e.date ∧ e.date ≤ startOfDayTs ts + 86399999)) ∧
      res.Sorted (fun a b => b.date ≤ a.date) := by
  by_cases hempty : search = ""
  · subst hempty
    refine ⟨_, rfl, fun e => ?_, List.sorted_insertionSort _ _⟩
    rw [sortByDateDesc, (List.perm_insertionSort _ _).mem_iff,
      List.mem_filter, matchesDateFilter_iff]
    simp
  · have hc : compilePattern search = some (search.toList.map RegexToken.lit) :=
      compileChars_literal search.toList hs
    refine ⟨sortByDateDesc (store.filter (fun e =>
        matchesSearchR (search.toList.map RegexToken.lit) e &&
          matchesDateFilter d e)),
      ?_, fun e => ?_, List.sorted_insertionSort _ _⟩
    · rw [findEvents, if_neg hempty, hc]
    rw [sortByDateDesc, (List.perm_insertionSort _ _).mem_iff,
      List.mem_filter, Bool.and_eq_true, matchesDateFilter_iff]
    have hA : matchesSearchR (search.toList.map RegexToken.lit) e = true ↔
        ((search.toList.map Char.toLower)
            <:+: (e.title.toList.map Char.toLower) ∨
         (search.toList.map Char.toLower)
            <:+: (e.description.toList.map Char.toLower) ∨
         (∃ p ∈ e.people,
           (search.toList.map Char.toLower) <:+: (p.toList.map Char.toLower)) ∨
         (∃ t ∈ e.tags,
           (search.toList.map Char.toLower) <:+: (t.toList.map Char.toLower)) ∨
         (search.toList.map Char.toLower)
            <:+: (e.address.toList.map Char.toLower)) := by
      simp [matchesSearchR, List.any_eq_true, regexTest_lit, or_assoc]
    rw [hA]
    simp [hempty, and_assoc]

theorem findEvents_literalSearch_witness :
    ("stand".toList.all isLiteralChar = true) ∧
    ∃ res, findEvents [dotlessEvent] "stand" DateInput.missing = some res ∧
      (∀ e, e ∈ res ↔ e ∈ [dotlessEvent] ∧
        (("stand" : String) = "" ∨
          (("stand".toList.map Char.toLower)
              <:+: (e.title.toList.map Char.toLower) ∨
           ("stand".toList.map Char.toLower)
              <:+: (e.description.toList.map Char.toLower) ∨
           (∃ p ∈ e.people,
             ("stand".toList.map Char.toLower)
               <:+: (p.toList.map Char.toLower)) ∨
           (∃ t ∈ e.tags,
             ("stand".toList.map Char.toLower)
               <:+: (t.toList.map Char.toLower)) ∨
           ("stand".toList.map Char.toLower)
              <:+: (e.address.toList.map Char.toLower))) ∧
        (∀ ts, DateInput.missing = DateInput.valid ts →
          startOfDayTs ts ≤ e.date ∧ e.date ≤ startOfDayTs ts + 86399999)) ∧
      res.Sorted (fun a b => b.date ≤ a.date) :=
  ⟨by decide,
    findEvents_literalSearch [dotlessEvent] "stand" DateInput.missing
      (by decide)⟩

/-- C8: a malformed date query parameter is ignored — the request does not
fail, and the result equals that of the same query with no date parameter. -/
theorem malformedDate_ignored (store : List Event) (search : String)
    (s : String) :
    findEvents store search (DateInput.malformed s)
      = findEvents store search DateInput.missing := rfl

/-- C9: filtering is idempotent — applying the Filter Engine to its own
output with the same filter specification and selected date yields the same
result as applying it once. -/
theorem filterEngine_idempotent (events : List Event) (f : Filters)
    (sd : Option Int) :
    filteredEvents (filteredEvents events f sd) f sd
      = filteredEvents events f sd := by
  simp [filteredEvents, List.filter_filter]

/-- C2 as stated fails on the code: for the payload with an empty title but
a present date and address, the spec's list of missing fields is exactly
["title"], but the handler's ValidationError names the fixed list
["title", "date", "address"] — it does not list which fields are missing. -/
theorem create_validation_counterexample :
    (createEvent emptyTitlePayload (GeoOutcome.ok []) [] []).1
        = CreateResponse.validationError ["title", "date", "address"] ∧
    specMissingFields emptyTitlePayload = ["title"] ∧
    (["title", "date", "address"] : List String) ≠ ["title"] := by
  refine ⟨rfl, rfl, by decide⟩

/-- C2 (amended): for every creation payload with a missing or empty
required field (title, date, or address), the handler rejects with a
ValidationError naming the fixed field list ["title", "date", "address"] — a
list containing every missing field, in particular "title" when the title is
empty — no event is written to the store, and the outcome is independent of
the geocoder (the geocoder is not consulted). -/
theorem create_validation_rejects (p : Payload) (geo geo2 : GeoOutcome)
    (files : List String) (store : List Event)
    (h : p.title = "" ∨ p.date = DateInput.missing ∨ p.address = "") :
    createEvent p geo files store
        = (CreateResponse.validationError ["title", "date", "address"], store) ∧
    (∀ f, f ∈ specMissingFields p → f ∈ ["title", "date", "address"]) ∧
    createEvent p geo files store = createEvent p geo2 files store := by
  refine ⟨?_, fun f hf => ?_, ?_⟩
  · rw [createEvent.eq_def, if_pos h]
  · simp only [specMissingFields, List.mem_append] at hf
    rcases hf with (hf | hf) | hf <;> split_ifs at hf <;> simp_all
  · rw [createEvent.eq_def, if_pos h]
    rw [createEvent.eq_def, if_pos h]

theorem create_validation_rejects_witness :
    (emptyTitlePayload.title = "" ∨ emptyTitlePayload.date = DateInput.missing ∨
      emptyTitlePayload.address = "") ∧
    (createEvent emptyTitlePayload GeoOutcome.netError [] []
        = (CreateResponse.validationError ["title", "date", "address"], []) ∧
      (∀ f, f ∈ specMissingFields emptyTitlePayload →
        f ∈ ["title", "date", "address"]) ∧
      createEvent emptyTitlePayload GeoOutcome.netError [] []
        = createEvent emptyTitlePayload (GeoOutcome.ok []) [] []) :=
  ⟨Or.inl rfl,
    create_validation_rejects emptyTitlePayload GeoOutcome.netError
      (GeoOutcome.ok []) [] [] (Or.inl rfl)⟩

/-- C3: for every valid payload, when address resolution yields zero
candidates or any geocoder failure (network error, or NaN coordinates in the
first candidate), creation fails with GeocodingFailed and the store is
unchanged; moreover every call of the creation pipeline either leaves the
store unchanged or succeeds and appends exactly the created event — so no
partially-created event is ever observable through find. -/
theorem create_geocodeFail (p : Payload) (geo : GeoOutcome)
    (files : List String) (store : List Event)
    (hv : p.title ≠ "" ∧ p.date ≠ DateInput.missing ∧ p.address ≠ "")
    (hg : geo = GeoOutcome.netError ∨ geo = GeoOutcome.ok [] ∨
      ∃ c rest, geo = GeoOutcome.ok (c :: rest) ∧
        (c.lat = none ∨ c.lon = none)) :
    (∃ s, createEvent p geo files store
        = (CreateResponse.geocodingFailed s, store)) ∧
    (∀ q g f st, (createEvent q g f st).2 = st ∨
      ∃ e, createEvent q g f st = (CreateResponse.created e, st ++ [e])) := by
  obtain ⟨ht, hd, ha⟩ := hv
  constructor
  · rcases hg with rfl | rfl | ⟨c, rest, rfl, hc⟩
    · exact ⟨500, by simp [createEvent, ht, hd, ha]⟩
    · exact ⟨400, by simp [createEvent, ht, hd, ha]⟩
    · rcases hc with hc | hc
      · rcases hlon : c.lon with _ | lonv <;>
          exact ⟨500, by simp [createEvent, ht, hd, ha, hc, hlon]⟩
      · exact ⟨500, by simp [createEvent, ht, hd, ha, hc]⟩
  · intro q g f st
    by_cases hq : q.title = "" ∨ q.date = DateInput.missing ∨ q.address = ""
    · left; simp [createEvent, hq]
    · push_neg at hq
      obtain ⟨hqt, hqd, hqa⟩ := hq
      cases g with
      | netError => left; simp [createEvent, hqt, hqd, hqa]
      | ok cs =>
        cases cs with
        | nil => left; simp [createEvent, hqt, hqd, hqa]
        | cons c rest =>
          rcases hlon : c.lon with _ | lonv
          · left; simp [createEvent, hqt, hqd, hqa, hlon]
          rcases hlat : c.lat with _ | latv
          · left; simp [createEvent, hqt, hqd, hqa, hlon, hlat]
          rcases hdate : q.date with _ | s | ts
          · exact absurd hdate hqd
          · left; simp [createEvent, hqt, hqd, hqa, hlon, hlat, hdate]
          · right
            refine ⟨{ title := q.title, description := q.description,
                      people := splitTrim q.people, date := ts,
                      address := q.address, coordinates := [lonv, latv],
                      tags := splitTrim q.tags,
                      images := f.map (fun x => "/uploads/" ++ x) }, ?_⟩
            simp [createEvent, hqt, hqd, hqa, hlon, hlat, hdate]

theorem create_geocodeFail_witness :
    (("Standup" : String) ≠ "" ∧
      DateInput.valid 1721001600000 ≠ DateInput.missing ∧
      ("1 Infinite Loop, Cupertino" : String) ≠ "") ∧
    ((∃ s, createEvent
        { title := "Standup", description := "", people := "",
          date := DateInput.valid 1721001600000,
          address := "1 Infinite Loop, Cupertino", tags := "" }
        (GeoOutcome.ok []) [] []
          = (CreateResponse.geocodingFailed s, [])) ∧
      (∀ q g f st, (createEvent q g f st).2 = st ∨
        ∃ e, createEvent q g f st = (CreateResponse.created e, st ++ [e]))) :=
  ⟨⟨by decide, by decide, by decide⟩,
    create_geocodeFail
      { title := "Standup", description := "", people := "",
        date := DateInput.valid 1721001600000,
        address := "1 Infinite Loop, Cupertino", tags := "" }
      (GeoOutcome.ok []) [] []
      ⟨by decide, by decide, by decide⟩ (Or.inr (Or.inl rfl))⟩

/-- C5: for every successfully created event, the stored coordinates are the
ordered pair [longitude, latitude] taken from the geocoder's first
candidate's parsed lon and lat fields — never from the payload; with a
geocoder candidate {lat: 37.33, lon: -122.03} the stored coordinates are
[-122.03, 37.33]. -/
theorem create_coordinates (p : Payload) (latv lonv : ℚ)
    (rest : List GeoCandidate) (files : List String) (store : List Event)
    (ts : Int) (ht : p.title ≠ "") (hd : p.date = DateInput.valid ts)
    (ha : p.address ≠ "") :
    ∃ e, createEvent p
        (GeoOutcome.ok ({ lat := some latv, lon := some lonv } :: rest))
        files store
      = (CreateResponse.created e, store ++ [e]) ∧
      e.coordinates = [lonv, latv] := by
  refine ⟨{ title := p.title, description := p.description,
            people := splitTrim p.people, date := ts, address := p.address,
            coordinates := [lonv, latv], tags := splitTrim p.tags,
            images := files.map (fun f => "/uploads/" ++ f) }, ?_, rfl⟩
  simp [createEvent, ht, ha, hd]

theorem create_coordinates_witness :
    (("Standup" : String) ≠ "") ∧
    (({ title := "Standup", description := "", people := "",
        date := DateInput.valid 1721001600000,
        address := "1 Infinite Loop, Cupertino", tags := "" } : Payload).date
      = DateInput.valid 1721001600000) ∧
    (("1 Infinite Loop, Cupertino" : String) ≠ "") ∧
    ∃ e, createEvent
        { title := "Standup", description := "", people := "",
          date := DateInput.valid 1721001600000,
          address := "1 Infinite Loop, Cupertino", tags := "" }
        (GeoOutcome.ok [{ lat := some 37.33, lon := some (-122.03) }]) [] []
      = (CreateResponse.created e, [e]) ∧
      e.coordinates = [-122.03, 37.33] :=
  ⟨by decide, rfl, by decide,
    create_coordinates
      { title := "Standup", description := "", people := "",
        date := DateInput.valid 1721001600000,
        address := "1 Infinite Loop, Cupertino", tags := "" }
      37.33 (-122.03) [] [] [] 1721001600000 (by decide) rfl (by decide)⟩

theorem parseClientEvent_some (r : RawEvent) (e : Event)
    (h : parseClientEvent r = some e) :
    r.date = DateInput.valid e.date ∧ e.people = r.people := by
  cases hd : r.date with
  | missing => simp [parseClientEvent, hd] at h
  | malformed s => simp [parseClientEvent, hd] at h
  | valid ts =>
    simp [parseClientEvent, hd] at h
    rw [← h]
    exact ⟨rfl, rfl⟩

/-- C10: the fetch effect keeps exactly the events whose date field parsed to
a valid instant, so every event in the client's in-memory set carries a valid
date — and hence no fetched event with a missing or unparseable date is ever
shown, matched by the Filter Engine, or counted in the people facet. -/
theorem clientDateInvariant (raws : List RawEvent) :
    (∀ e, e ∈ eventsWithDates raws →
      ∃ r ∈ raws, r.date = DateInput.valid e.date) ∧
    (∀ f sd, ∀ e ∈ filteredEvents (eventsWithDates raws) f sd,
      ∃ r ∈ raws, r.date = DateInput.valid e.date) ∧
    (∀ x, x ∈ uniquePeople (eventsWithDates raws) →
      ∃ r ∈ raws, (∃ ts, r.date = DateInput.valid ts) ∧ x ∈ r.people) := by
  have hmem : ∀ e, e ∈ eventsWithDates raws →
      ∃ r ∈ raws, r.date = DateInput.valid e.date ∧ e.people = r.people := by
    intro e he
    rw [eventsWithDates, List.mem_filterMap] at he
    obtain ⟨r, hr, hp⟩ := he
    exact ⟨r, hr, parseClientEvent_some r e hp⟩
  refine ⟨fun e he => ?_, fun f sd e he => ?_, fun x hx => ?_⟩
  · obtain ⟨r, hr, hd, _⟩ := hmem e he
    exact ⟨r, hr, hd⟩
  · obtain ⟨r, hr, hd, _⟩ := hmem e (List.mem_filter.mp he).1
    exact ⟨r, hr, hd⟩
  · obtain ⟨_, _, hm⟩ :=
      sortedDedup_spec
        (((eventsWithDates raws).flatMap (·.people)).filter (· ≠ ""))
    rw [uniquePeople, hm, List.mem_filter] at hx
    obtain ⟨hx, -⟩ := hx
    rw [List.mem_flatMap] at hx
    obtain ⟨e, he, hxe⟩ := hx
    obtain ⟨r, hr, hd, hpeq⟩ := hmem e he
    exact ⟨r, hr, ⟨e.date, hd⟩, hpeq ▸ hxe⟩
